import Mathlib

/-!
Shallow embedding of the ASAP-Roadworthy backend (Express + Prisma) custom
logic: the auth routes (`src/routes/auth.ts`), the auth middleware
(`src/middleware/auth.ts`), the messages router and the bookings router.

External effects (Prisma queries, `fetch` calls to the ServiceM8 API,
bcrypt, JWT signing) are modelled explicitly: the database is passed as
lists of rows, external HTTP responses are inputs, bcrypt comparison is a
function parameter, and a JWT is a record carrying its payload, signing
secret and expiry instant.  Times are milliseconds since epoch as `Nat`.
-/

namespace ASAP

/-- A local user row (Prisma `User` model).  `sm8Uuid` is the optional
linked ServiceM8 company UUID; `password` is the bcrypt hash. -/
structure User where
  id : Nat
  name : String
  email : String
  phone : String
  password : String
  sm8Uuid : Option String
deriving Repr, DecidableEq

/-- A signed JWT, modelled as a record of its payload (`sm8Uuid`), the
secret it was signed with, and the absolute expiry instant encoded by the
`expiresIn` option (milliseconds since epoch). -/
structure Jwt where
  sm8Uuid : String
  secret : String
  expMs : Nat
deriving Repr, DecidableEq

/-- `jwt.sign({ sm8Uuid }, secret, { expiresIn })`: the embedded expiry
claim is the signing instant plus `expiresInMs`. -/
def jwtSign (sm8Uuid secret : String) (now expiresInMs : Nat) : Jwt :=
  { sm8Uuid := sm8Uuid, secret := secret, expMs := now + expiresInMs }

/-- `jwt.verify(token, secret)` at instant `now`: succeeds with the payload
iff the signature checks out (same secret) and the embedded expiry lies in
the future. -/
def jwtVerify (t : Jwt) (secret : String) (now : Nat) : Option String :=
  if t.secret = secret ∧ now < t.expMs then some t.sm8Uuid else none

/-- A session row (Prisma `Session` model). -/
structure Session where
  userId : Nat
  token : Jwt
  expiresAt : Nat
deriving Repr, DecidableEq

/-- A booking message row (Prisma `BookingMessage` model). -/
structure BookingMessage where
  id : Nat
  bookingUuid : String
  bookingDescription : String
  bookingStatus : String
  userId : Nat
  message : String
  createdAt : Nat
deriving Repr, DecidableEq

/-- Result of an outbound `fetch` whose body is parsed as `α`:
either `response.ok` with the parsed JSON, or a non-ok status with body
text. -/
inductive FetchResult (α : Type) where
  | ok (body : α)
  | err (status : Nat) (body : String)
deriving Repr, DecidableEq

/-- One record of the ServiceM8 `companycontact.json` response.
`company_uuid` may be absent (`none`) or present; JavaScript treats the
empty string as falsy, which `jsTruthy` below captures. -/
structure ContactRecord where
  company_uuid : Option String
deriving Repr, DecidableEq

/-- JavaScript truthiness of an optional string: `undefined`/`null` and
`""` are falsy. -/
def jsTruthy : Option String → Bool
  | none => false
  | some s => !s.isEmpty

/-! ## Login handler (`router.post("/login")` in `src/routes/auth.ts`) -/

structure LoginRequest where
  identifier : String
  password : String
deriving Repr, DecidableEq

/-- The full observable outcome of the login handler: HTTP status, JSON
message/error string, the database state after the request, and the cookie
set (token value and `maxAge` in milliseconds), if any. -/
structure LoginOutcome where
  status : Nat
  body : String
  users : List User
  sessions : List Session
  setCookie : Option (Jwt × Nat)
deriving Repr, DecidableEq

/-- The login handler.  `bcryptCompare pw hash` models
`bcrypt.compare(password, user.password)`; `sm8Response` is the result of
the `companycontact.json` fetch; `now` is `Date.now()`. -/
def loginHandler (bcryptCompare : String → String → Bool)
    (req : LoginRequest) (users : List User) (sessions : List Session)
    (jwtSecret : String) (now : Nat)
    (sm8Response : FetchResult (List ContactRecord)) : LoginOutcome :=
  match users.find? (fun u => u.email == req.identifier || u.phone == req.identifier) with
  | none =>
      { status := 404, body := "Invalid email or phone and password",
        users := users, sessions := sessions, setCookie := none }
  | some user =>
      if !bcryptCompare req.password user.password then
        { status := 404, body := "Invalid email or phone and password",
          users := users, sessions := sessions, setCookie := none }
      else
        match sm8Response with
        | .err _ _ =>
            { status := 500, body := "Failed to verify user with ServiceM8",
              users := users, sessions := sessions, setCookie := none }
        | .ok client =>
            match client.head? with
            | none =>
                -- `client[0]` is `undefined`, so `client[0].company_uuid`
                -- throws; the catch block answers 500.
                { status := 500, body := "Internal server error",
                  users := users, sessions := sessions, setCookie := none }
            | some c =>
                if jsTruthy c.company_uuid then
                  let clientUuid := c.company_uuid.getD ""
                  let users' := users.map (fun u =>
                    if u.id == user.id then { u with sm8Uuid := some clientUuid } else u)
                  let token := jwtSign clientUuid jwtSecret now (60 * 60 * 1000)
                  let sessions' := sessions ++
                    [{ userId := user.id, token := token,
                       expiresAt := now + 60 * 60 * 1000 }]
                  { status := 200, body := "Logged in successful",
                    users := users', sessions := sessions',
                    setCookie := some (token, 7 * 24 * 60 * 60 * 1000) }
                else
                  { status := 404, body := "User not found in ServiceM8",
                    users := users, sessions := sessions, setCookie := none }

/-! ## Auth middleware (`src/middleware/auth.ts`) -/

/-- Outcome of the auth middleware: either an error response, or `next()`
with the session's user attached to the request. -/
inductive AuthResult where
  | unauthorized (message : String)
  | proceed (user : User)
deriving Repr, DecidableEq

/-- `authMiddleware`: reads the cookie only, looks the session up by exact
token match, requires the joined user row, and proceeds.  The missing
`sm8Uuid` case only logs a warning and still proceeds. -/
def authMiddleware (cookieToken : Option Jwt)
    (sessions : List Session) (users : List User) : AuthResult :=
  match cookieToken with
  | none => .unauthorized "Unauthorized: No token provided"
  | some t =>
      match sessions.find? (fun s => s.token == t) with
      | none => .unauthorized "Unauthorized: Invalid session"
      | some s =>
          match users.find? (fun u => u.id == s.userId) with
          | none => .unauthorized "Unauthorized: Invalid session"
          | some u => .proceed u

/-! ## `extractToken` (`src/lib/utils.ts`) and check-session -/

/-- The `Authorization` header, modelled post-split: the scheme word and
the token that follows it (if any). -/
structure AuthHeader where
  scheme : String
  token : Option Jwt
deriving Repr, DecidableEq

/-- `extractToken`: returns the header token when the scheme is exactly
`"Bearer"`, otherwise nothing. -/
def extractToken (header : Option AuthHeader) : Option Jwt :=
  match header with
  | none => none
  | some h => if h.scheme == "Bearer" then h.token else none

/-- The user-profile object returned by check-session. -/
structure PublicProfile where
  id : Nat
  name : String
  email : String
  phone : String
deriving Repr, DecidableEq

/-- Response of the check-session handler. -/
inductive CheckSessionResponse where
  | error (status : Nat) (message : String)
  | valid (user : PublicProfile)
deriving Repr, DecidableEq

/-- `router.get("/check-session")`: token from the bearer header or,
failing that, the cookie; 401 when missing; 401 when `jwt.verify` fails
(bad signature or expired); 401 when no session row holds that token; on
success, 200 with the user's id, name, email and phone.  A session row
whose user is missing would make `session.user.id` throw, answered 500 by
the catch block (impossible under the foreign-key constraint). -/
def checkSession (header : Option AuthHeader) (cookieToken : Option Jwt)
    (sessions : List Session) (users : List User)
    (jwtSecret : String) (now : Nat) : CheckSessionResponse :=
  match (extractToken header).orElse (fun _ => cookieToken) with
  | none => .error 401 "Unauthorized"
  | some t =>
      match jwtVerify t jwtSecret now with
      | none => .error 401 "Invalid token"
      | some _ =>
          match sessions.find? (fun s => s.token == t) with
          | none => .error 401 "Session not found"
          | some s =>
              match users.find? (fun u => u.id == s.userId) with
              | none => .error 500 "Internal server error"
              | some u =>
                  .valid { id := u.id, name := u.name,
                           email := u.email, phone := u.phone }

/-! ## Logout handler (`router.post("/logout")`) -/

/-- Observable outcome of the logout handler: status, message, the session
table after the request, and whether the cookie was cleared. -/
structure LogoutOutcome where
  status : Nat
  body : String
  sessions : List Session
  clearedCookie : Bool
deriving Repr, DecidableEq

/-- `router.post("/logout")`: with no cookie, 400 and nothing touched;
with a cookie, `deleteMany` of every session row holding that token, then
clear the cookie and answer 200. -/
def logoutHandler (cookieToken : Option Jwt)
    (sessions : List Session) : LogoutOutcome :=
  match cookieToken with
  | none =>
      { status := 400, body := "No active session found",
        sessions := sessions, clearedCookie := false }
  | some t =>
      { status := 200, body := "Logged out successfully",
        sessions := sessions.filter (fun s => !(s.token == t)),
        clearedCookie := true }

/-! ## Sorting (model of Prisma `orderBy`)

Prisma's `orderBy: { createdAt: "asc" | "desc" }` is modelled by an
insertion sort over a boolean comparison, which the kernel can evaluate on
concrete rows. -/

/-- Insert `x` into `l` before the first element `y` with `le x y`. -/
def insertSorted (le : α → α → Bool) (x : α) : List α → List α
  | [] => [x]
  | y :: ys => if le x y then x :: y :: ys else y :: insertSorted le x ys

/-- Insertion sort by the boolean comparison `le`. -/
def sortBy (le : α → α → Bool) : List α → List α
  | [] => []
  | x :: xs => insertSorted le x (sortBy le xs)

/-! ## Messages router (`src/routes/messages.ts`) -/

/-- The parsed JSON of the per-job detail fetch used at message-send time
(`fetchJobDetails`); only the two denormalized fields are read. -/
structure JobDetails where
  job_description : String
  status : String
deriving Repr, DecidableEq

/-- Outcome of the send-message handler: status, either an error string or
the saved row, and the `BookingMessage` table after the request. -/
structure SendMessageOutcome where
  status : Nat
  errorBody : Option String
  saved : Option BookingMessage
  messages : List BookingMessage
deriving Repr, DecidableEq

/-- `router.post("/:uuid/send-message")`: 401 without a user, 400 on a
falsy (absent or empty) message body, otherwise persists one row whose
denormalized fields come from the live job fetch and returns it.
`reqUser` is `req.user` as attached by the middleware; `nextId`/`now`
model the database's id sequence and `CURRENT_TIMESTAMP`. -/
def sendMessage (reqUser : Option User) (uuid : String)
    (message : Option String) (jobDetails : JobDetails)
    (messages : List BookingMessage) (nextId now : Nat) : SendMessageOutcome :=
  match reqUser with
  | none =>
      { status := 401, errorBody := some "Unauthorized",
        saved := none, messages := messages }
  | some user =>
      if !jsTruthy message then
        { status := 400, errorBody := some "Message is required",
          saved := none, messages := messages }
      else
        let row : BookingMessage :=
          { id := nextId, bookingUuid := uuid,
            bookingDescription := jobDetails.job_description,
            bookingStatus := jobDetails.status,
            userId := user.id, message := message.getD "",
            createdAt := now }
        { status := 200, errorBody := none,
          saved := some row, messages := messages ++ [row] }

/-- One element of the get-messages response: the message row joined with
the author's selected fields (`id`, `name`, `email` only). -/
structure MessageWithAuthor where
  msg : BookingMessage
  authorId : Nat
  authorName : String
  authorEmail : String
deriving Repr, DecidableEq

/-- Join one message with its author's selected fields. -/
def joinAuthor (users : List User) (m : BookingMessage) :
    Option MessageWithAuthor :=
  match users.find? (fun u => u.id == m.userId) with
  | none => none
  | some u =>
      some { msg := m, authorId := u.id, authorName := u.name,
             authorEmail := u.email }

/-- Join every message with its author; fails if any author row is
missing. -/
def joinAll (users : List User) :
    List BookingMessage → Option (List MessageWithAuthor)
  | [] => some []
  | m :: rest =>
      match joinAuthor users m, joinAll users rest with
      | some j, some js => some (j :: js)
      | _, _ => none

/-- `router.get("/:uuid/get-messages")`: all rows with the requested
`bookingUuid`, ordered by `createdAt` ascending, each including the
author's `id`, `name`, `email`.  A row whose user is missing would make
the Prisma include fail, answered 500 by the catch block (impossible
under the foreign-key constraint): modelled as `none`. -/
def getMessages (uuid : String) (messages : List BookingMessage)
    (users : List User) : Option (List MessageWithAuthor) :=
  joinAll users (sortBy (fun a b => a.createdAt ≤ b.createdAt)
    (messages.filter (fun m => m.bookingUuid == uuid)))

/-- The record stored under each key of the grouped response object. -/
structure GroupedEntry where
  bookingUuid : String
  bookingDescription : String
deriving Repr, DecidableEq

/-- The `grouped` accumulation loop: iterate the (already sorted) messages
in order and, for each booking UUID not yet a key, append the key with a
singleton array holding that message's uuid and description.  JavaScript
objects with string keys preserve insertion order, so the object is an
association list. -/
def groupMessages (acc : List (String × List GroupedEntry)) :
    List BookingMessage → List (String × List GroupedEntry)
  | [] => acc
  | m :: rest =>
      if acc.any (fun p => p.1 == m.bookingUuid) then
        groupMessages acc rest
      else
        groupMessages
          (acc ++ [(m.bookingUuid,
            [{ bookingUuid := m.bookingUuid,
               bookingDescription := m.bookingDescription }])]) rest

/-- `router.get("/")` of the messages router: the current user's messages
ordered by `createdAt` descending, grouped to one entry per booking UUID
(first message seen wins). -/
def listAllGrouped (userId : Nat) (messages : List BookingMessage) :
    List (String × List GroupedEntry) :=
  let sorted := sortBy (fun a b => b.createdAt ≤ a.createdAt)
    (messages.filter (fun m => m.userId == userId))
  groupMessages [] sorted

/-- First occurrences: keep each message whose booking UUID has not been
seen yet; mirrors the key-insertion behaviour of `groupMessages`. -/
def firstOccsAux (seen : List String) :
    List BookingMessage → List BookingMessage
  | [] => []
  | m :: rest =>
      if m.bookingUuid ∈ seen then firstOccsAux seen rest
      else m :: firstOccsAux (m.bookingUuid :: seen) rest

/-- The most recent `createdAt` among a user's messages on booking `u`
(0 when there are none). -/
def latestActivity (userId : Nat) (msgs : List BookingMessage)
    (u : String) : Nat :=
  ((msgs.filter (fun m => m.userId == userId && m.bookingUuid == u)).map
    (fun m => m.createdAt)).foldr max 0

/-! ## Bookings router (`src/routes/bookings.ts`) -/

/-- One attachment record from `attachment.json`. -/
structure Attachment where
  uuid : String
  fileName : String
deriving Repr, DecidableEq

/-- An external job record (only the fields the routes touch). -/
structure Job where
  uuid : String
  description : String
deriving Repr, DecidableEq

/-- `fetchBookingAttachments`: on a non-ok upstream response, log and
return the empty list; otherwise the parsed attachment list. -/
def fetchBookingAttachments (resp : FetchResult (List Attachment)) :
    List Attachment :=
  match resp with
  | .ok attachments => attachments
  | .err _ _ => []

/-- Response of the job-listing endpoint: an error status with a message,
or 200 with each job paired with its attachment list (the spread
`{ ...job, attachments }`). -/
inductive ListJobsResponse where
  | error (status : Nat) (message : String)
  | ok (jobs : List (Job × List Attachment))
deriving Repr, DecidableEq

/-- `router.get("/")` of the bookings router: 401 without a user, 400 when
the user's `sm8Uuid` is falsy, 500 when the job fetch itself fails,
otherwise 200 with every job carrying the result of its own attachment
fetch (`attResp j.uuid`). -/
def listJobs (reqUser : Option User)
    (jobsResp : FetchResult (List Job))
    (attResp : String → FetchResult (List Attachment)) : ListJobsResponse :=
  match reqUser with
  | none => .error 401 "Unauthorized"
  | some user =>
      if !jsTruthy user.sm8Uuid then
        .error 400 "ServiceM8 UUID not found for user"
      else
        match jobsResp with
        | .err _ _ => .error 500 "Failed to fetch jobs from ServiceM8"
        | .ok jobs =>
            .ok (jobs.map (fun j =>
              (j, fetchBookingAttachments (attResp j.uuid))))

/-! ## General lemmas about the sort and grouping helpers -/

theorem perm_insertSorted (le : α → α → Bool) (x : α) (l : List α) :
    List.Perm (insertSorted le x l) (x :: l) := by
  induction l with
  | nil => simp [insertSorted]
  | cons y ys ih =>
      simp only [insertSorted]
      by_cases h : le x y = true
      · rw [if_pos h]
      · rw [if_neg h]
        exact (List.Perm.cons y ih).trans (List.Perm.swap x y ys)

theorem perm_sortBy (le : α → α → Bool) (l : List α) :
    List.Perm (sortBy le l) l := by
  induction l with
  | nil => simp [sortBy]
  | cons x xs ih =>
      exact (perm_insertSorted le x (sortBy le xs)).trans (List.Perm.cons x ih)

theorem pairwise_insertSorted (le : α → α → Bool)
    (htot : ∀ a b, le a b = true ∨ le b a = true)
    (htrans : ∀ a b c, le a b = true → le b c = true → le a c = true)
    (x : α) (l : List α)
    (hl : l.Pairwise (fun a b => le a b = true)) :
    (insertSorted le x l).Pairwise (fun a b => le a b = true) := by
  induction l with
  | nil => simp [insertSorted]
  | cons y ys ih =>
      rcases List.pairwise_cons.mp hl with ⟨hy, hys⟩
      simp only [insertSorted]
      by_cases h : le x y = true
      · rw [if_pos h]
        refine List.pairwise_cons.mpr ⟨?_, hl⟩
        intro z hz
        rcases List.mem_cons.mp hz with rfl | hz
        · exact h
        · exact htrans x y z h (hy z hz)
      · have hyx : le y x = true := by
          rcases htot x y with h1 | h1
          · exact absurd h1 h
          · exact h1
        rw [if_neg h]
        refine List.pairwise_cons.mpr ⟨?_, ih hys⟩
        intro z hz
        have hz' : z ∈ x :: ys :=
          (perm_insertSorted le x ys).mem_iff.mp hz
        rcases List.mem_cons.mp hz' with rfl | hz'
        · exact hyx
        · exact hy z hz'

theorem pairwise_sortBy (le : α → α → Bool)
    (htot : ∀ a b, le a b = true ∨ le b a = true)
    (htrans : ∀ a b c, le a b = true → le b c = true → le a c = true)
    (l : List α) :
    (sortBy le l).Pairwise (fun a b => le a b = true) := by
  induction l with
  | nil => simp [sortBy]
  | cons x xs ih => exact pairwise_insertSorted le htot htrans x (sortBy le xs) ih

theorem le_foldrMax {l : List Nat} {a : Nat} (h : a ∈ l) :
    a ≤ l.foldr max 0 := by
  induction l with
  | nil => cases h
  | cons x xs ih =>
      rcases List.mem_cons.mp h with rfl | h
      · exact Nat.le_max_left _ _
      · exact le_trans (ih h) (Nat.le_max_right _ _)

theorem foldrMax_le {l : List Nat} {c : Nat} (h : ∀ a ∈ l, a ≤ c) :
    l.foldr max 0 ≤ c := by
  induction l with
  | nil => exact Nat.zero_le c
  | cons x xs ih =>
      exact max_le (h x (List.mem_cons_self x xs))
        (ih fun a ha => h a (List.mem_cons_of_mem x ha))

theorem firstOccsAux_congr {seen seen' : List String}
    (h : ∀ x, x ∈ seen ↔ x ∈ seen') (l : List BookingMessage) :
    firstOccsAux seen l = firstOccsAux seen' l := by
  induction l generalizing seen seen' with
  | nil => rfl
  | cons m rest ih =>
      simp only [firstOccsAux]
      by_cases hm : m.bookingUuid ∈ seen
      · rw [if_pos hm, if_pos ((h _).mp hm)]
        exact ih h
      · rw [if_neg hm, if_neg (fun c => hm ((h _).mpr c))]
        have h' : ∀ x, x ∈ m.bookingUuid :: seen ↔ x ∈ m.bookingUuid :: seen' := by
          intro x
          simp only [List.mem_cons]
          exact or_congr Iff.rfl (h x)
        rw [ih h']

theorem mem_firstOccsAux_keys {u : String} (seen : List String)
    (l : List BookingMessage) :
    u ∈ (firstOccsAux seen l).map (fun m => m.bookingUuid) ↔
      u ∉ seen ∧ u ∈ l.map (fun m => m.bookingUuid) := by
  induction l generalizing seen with
  | nil => simp [firstOccsAux]
  | cons m rest ih =>
      simp only [firstOccsAux]
      by_cases hm : m.bookingUuid ∈ seen
      · rw [if_pos hm, ih]
        simp only [List.map_cons, List.mem_cons]
        constructor
        · rintro ⟨h1, h2⟩
          exact ⟨h1, Or.inr h2⟩
        · rintro ⟨h1, h2 | h2⟩
          · exact absurd (h2 ▸ hm) h1
          · exact ⟨h1, h2⟩
      · rw [if_neg hm]
        simp only [List.map_cons, List.mem_cons, ih]
        constructor
        · rintro (rfl | ⟨h1, h2⟩)
          · exact ⟨hm, Or.inl rfl⟩
          · exact ⟨fun c => h1 (Or.inr c), Or.inr h2⟩
        · rintro ⟨h1, rfl | h2⟩
          · exact Or.inl rfl
          · by_cases he : u = m.bookingUuid
            · exact Or.inl he
            · refine Or.inr ⟨fun c => ?_, h2⟩
              rcases c with hc | hc
              · exact he hc
              · exact h1 hc

theorem nodup_firstOccsAux_keys (seen : List String)
    (l : List BookingMessage) :
    ((firstOccsAux seen l).map (fun m => m.bookingUuid)).Nodup := by
  induction l generalizing seen with
  | nil => simp [firstOccsAux]
  | cons m rest ih =>
      simp only [firstOccsAux]
      by_cases hm : m.bookingUuid ∈ seen
      · rw [if_pos hm]
        exact ih seen
      · rw [if_neg hm]
        simp only [List.map_cons, List.nodup_cons]
        refine ⟨fun hc => ?_, ih _⟩
        rcases (mem_firstOccsAux_keys _ _).mp hc with ⟨hns, _⟩
        exact hns (List.mem_cons_self _ _)

theorem firstOccsAux_sublist (seen : List String)
    (l : List BookingMessage) :
    (firstOccsAux seen l).Sublist l := by
  induction l generalizing seen with
  | nil => simp [firstOccsAux]
  | cons m rest ih =>
      simp only [firstOccsAux]
      by_cases hm : m.bookingUuid ∈ seen
      · rw [if_pos hm]
        exact (ih seen).trans (List.sublist_cons_self m rest)
      · rw [if_neg hm]
        exact List.Sublist.cons₂ m (ih _)

theorem firstOccsAux_createdAt_max {l : List BookingMessage}
    (hsort : l.Pairwise (fun a b => b.createdAt ≤ a.createdAt))
    (seen : List String) {m : BookingMessage}
    (hm : m ∈ firstOccsAux seen l) :
    ∀ x ∈ l, x.bookingUuid = m.bookingUuid → x.createdAt ≤ m.createdAt := by
  induction l generalizing seen with
  | nil => simp [firstOccsAux] at hm
  | cons h0 rest ih =>
      rcases List.pairwise_cons.mp hsort with ⟨hhead, htail⟩
      simp only [firstOccsAux] at hm
      by_cases hs : h0.bookingUuid ∈ seen
      · rw [if_pos hs] at hm
        intro x hx hxu
        rcases List.mem_cons.mp hx with rfl | hx
        · have hk : m.bookingUuid ∈
              (firstOccsAux seen rest).map (fun m => m.bookingUuid) :=
            List.mem_map_of_mem _ hm
          rcases (mem_firstOccsAux_keys seen rest).mp hk with ⟨hns, _⟩
          exact absurd (hxu ▸ hs) hns
        · exact ih htail seen hm x hx hxu
      · rw [if_neg hs] at hm
        rcases List.mem_cons.mp hm with rfl | hm
        · intro x hx hxu
          rcases List.mem_cons.mp hx with rfl | hx
          · exact le_refl _
          · exact hhead x hx
        · intro x hx hxu
          rcases List.mem_cons.mp hx with rfl | hx
          · have hk : m.bookingUuid ∈
                (firstOccsAux (x.bookingUuid :: seen) rest).map
                  (fun m => m.bookingUuid) :=
              List.mem_map_of_mem _ hm
            rcases (mem_firstOccsAux_keys _ _).mp hk with ⟨hns, _⟩
            exact absurd (hxu ▸ List.mem_cons_self _ _) hns
          · exact ih htail _ hm x hx hxu

theorem groupMessages_keys (l : List BookingMessage)
    (acc : List (String × List GroupedEntry)) :
    (groupMessages acc l).map Prod.fst =
      acc.map Prod.fst ++
        (firstOccsAux (acc.map Prod.fst) l).map (fun m => m.bookingUuid) := by
  induction l generalizing acc with
  | nil => simp [groupMessages, firstOccsAux]
  | cons m rest ih =>
      simp only [groupMessages, firstOccsAux]
      have hmem : (acc.any (fun p => p.1 == m.bookingUuid) = true) ↔
          m.bookingUuid ∈ acc.map Prod.fst := by
        rw [List.any_eq_true]
        constructor
        · rintro ⟨p, hp, he⟩
          exact (beq_iff_eq.mp he) ▸ List.mem_map_of_mem Prod.fst hp
        · intro hmm
          rcases List.mem_map.mp hmm with ⟨p, hp, he⟩
          exact ⟨p, hp, beq_iff_eq.mpr he⟩
      by_cases hin : m.bookingUuid ∈ acc.map Prod.fst
      · rw [if_pos (hmem.mpr hin), if_pos hin]
        exact ih acc
      · rw [if_neg (fun c => hin (hmem.mp c)), if_neg hin]
        rw [ih]
        have hseen : ∀ x,
            x ∈ (acc ++ [(m.bookingUuid,
              [({ bookingUuid := m.bookingUuid,
                  bookingDescription := m.bookingDescription } : GroupedEntry)])]).map
                Prod.fst ↔
            x ∈ m.bookingUuid :: acc.map Prod.fst := by
          intro x
          simp only [List.map_append, List.map_cons, List.map_nil,
            List.mem_append, List.mem_cons, List.mem_singleton,
            List.not_mem_nil, or_false]
          exact or_comm
        rw [firstOccsAux_congr hseen]
        simp [List.map_append, List.append_assoc]

/-! ## Claim theorems -/

/-- C1 (counterexample): with correct credentials and an ok external
query returning an empty contact list — so no contact record with a
company UUID exists — the login handler answers 500, not 404, because
`client[0].company_uuid` throws and the catch block takes over.  No
session row is created either way. -/
theorem C1_counterexample :
    (loginHandler (fun p h => p == h) ⟨"a@b.c", "pw"⟩
      [⟨1, "n", "a@b.c", "0", "pw", none⟩] [] "sec" 0 (.ok [])).status = 500 ∧
    (loginHandler (fun p h => p == h) ⟨"a@b.c", "pw"⟩
      [⟨1, "n", "a@b.c", "0", "pw", none⟩] [] "sec" 0 (.ok [])).status ≠ 404 ∧
    (loginHandler (fun p h => p == h) ⟨"a@b.c", "pw"⟩
      [⟨1, "n", "a@b.c", "0", "pw", none⟩] [] "sec" 0 (.ok [])).sessions = [] := by
  decide

/-- C1 (amended): for a login whose identifier and password match a local
user and whose external contact query is HTTP-ok: if the returned list is
non-empty but its first record carries no truthy company UUID the handler
answers 404 with no session row created; if the list is empty the handler
answers 500 (the thrown property access is caught) with no session row
created. -/
theorem C1_login_no_external_match
    (bc : String → String → Bool) (req : LoginRequest)
    (users : List User) (sessions : List Session)
    (secret : String) (now : Nat) (client : List ContactRecord)
    (user : User)
    (hfind : users.find?
      (fun u => u.email == req.identifier || u.phone == req.identifier) =
      some user)
    (hpw : bc req.password user.password = true) :
    (client.head? = none →
      (loginHandler bc req users sessions secret now (.ok client)).status = 500 ∧
      (loginHandler bc req users sessions secret now (.ok client)).sessions =
        sessions) ∧
    (∀ c, client.head? = some c → jsTruthy c.company_uuid = false →
      (loginHandler bc req users sessions secret now (.ok client)).status = 404 ∧
      (loginHandler bc req users sessions secret now (.ok client)).sessions =
        sessions) := by
  constructor
  · intro hh
    simp [loginHandler, hfind, hpw, hh]
  · intro c hh ht
    simp [loginHandler, hfind, hpw, hh, ht]

/-- C1 (witness): a concrete run of the amended theorem's 404 branch. -/
theorem C1_witness :
    (loginHandler (fun p h => p == h) ⟨"a@b.c", "pw"⟩
      [⟨1, "n", "a@b.c", "0", "pw", none⟩] [] "sec" 0
      (.ok [⟨some ""⟩])).status = 404 ∧
    (loginHandler (fun p h => p == h) ⟨"a@b.c", "pw"⟩
      [⟨1, "n", "a@b.c", "0", "pw", none⟩] [] "sec" 0
      (.ok [⟨some ""⟩])).sessions = [] :=
  (C1_login_no_external_match (fun p h => p == h) ⟨"a@b.c", "pw"⟩
    [⟨1, "n", "a@b.c", "0", "pw", none⟩] [] "sec" 0 [⟨some ""⟩]
    ⟨1, "n", "a@b.c", "0", "pw", none⟩ (by decide) (by decide)).2
    ⟨some ""⟩ rfl (by decide)

/-- C2 (counterexample): a concrete successful login at time 1000 creates
its session row with `expiresAt = 1000 + 3600000` (one hour), not
`1000 + 604800000` (the 7-day cookie lifetime), refuting the claim that
the session row carries the 7-day expiry. -/
theorem C2_counterexample :
    (loginHandler (fun p h => p == h) ⟨"a@b.c", "pw"⟩
      [⟨1, "n", "a@b.c", "0", "pw", none⟩] [] "sec" 1000
      (.ok [⟨some "comp-1"⟩])).status = 200 ∧
    (loginHandler (fun p h => p == h) ⟨"a@b.c", "pw"⟩
      [⟨1, "n", "a@b.c", "0", "pw", none⟩] [] "sec" 1000
      (.ok [⟨some "comp-1"⟩])).sessions.map Session.expiresAt =
      [1000 + 60 * 60 * 1000] ∧
    (loginHandler (fun p h => p == h) ⟨"a@b.c", "pw"⟩
      [⟨1, "n", "a@b.c", "0", "pw", none⟩] [] "sec" 1000
      (.ok [⟨some "comp-1"⟩])).sessions.map Session.expiresAt ≠
      [1000 + 7 * 24 * 60 * 60 * 1000] := by
  decide

/-- C2 (amended): on every successful login the signed token embeds a
1-hour expiry claim, the persisted session row's `expiresAt` is also
creation time + 1 hour, and only the cookie's `maxAge` is the 7-day
lifetime. -/
theorem C2_login_lifetimes
    (bc : String → String → Bool) (req : LoginRequest)
    (users : List User) (sessions : List Session)
    (secret : String) (now : Nat) (c : ContactRecord)
    (rest : List ContactRecord) (user : User)
    (hfind : users.find?
      (fun u => u.email == req.identifier || u.phone == req.identifier) =
      some user)
    (hpw : bc req.password user.password = true)
    (ht : jsTruthy c.company_uuid = true) :
    (loginHandler bc req users sessions secret now (.ok (c :: rest))).status =
      200 ∧
    (loginHandler bc req users sessions secret now (.ok (c :: rest))).sessions =
      sessions ++ [{ userId := user.id,
                     token := jwtSign (c.company_uuid.getD "") secret now
                       (60 * 60 * 1000),
                     expiresAt := now + 60 * 60 * 1000 }] ∧
    (loginHandler bc req users sessions secret now (.ok (c :: rest))).setCookie =
      some (jwtSign (c.company_uuid.getD "") secret now (60 * 60 * 1000),
        7 * 24 * 60 * 60 * 1000) ∧
    (jwtSign (c.company_uuid.getD "") secret now (60 * 60 * 1000)).expMs =
      now + 60 * 60 * 1000 := by
  refine ⟨?_, ?_, ?_, rfl⟩ <;> simp [loginHandler, hfind, hpw, ht]

/-- C2 (witness): a concrete run of the amended lifetimes theorem. -/
theorem C2_witness :
    (loginHandler (fun p h => p == h) ⟨"a@b.c", "pw"⟩
      [⟨1, "n", "a@b.c", "0", "pw", none⟩] [] "sec" 1000
      (.ok [⟨some "comp-1"⟩])).sessions =
      [{ userId := 1, token := jwtSign "comp-1" "sec" 1000 (60 * 60 * 1000),
         expiresAt := 1000 + 60 * 60 * 1000 : Session }] :=
  (C2_login_lifetimes (fun p h => p == h) ⟨"a@b.c", "pw"⟩
    [⟨1, "n", "a@b.c", "0", "pw", none⟩] [] "sec" 1000 ⟨some "comp-1"⟩ []
    ⟨1, "n", "a@b.c", "0", "pw", none⟩ (by decide) (by decide)
    (by decide)).2.1

/-- C3: the auth middleware authenticates purely by exact token match
against the session table: even when `jwt.verify` would reject the token
(wrong secret or embedded expiry in the past) and the session row's own
`expiresAt` has passed, a request whose cookie token matches a persisted
session row still proceeds with that session's user. -/
theorem C3_middleware_no_verification
    (sessions : List Session) (users : List User) (t : Jwt)
    (s : Session) (u : User) (secret : String) (now : Nat)
    (hs : sessions.find? (fun x => x.token == t) = some s)
    (hu : users.find? (fun x => x.id == s.userId) = some u)
    (hinvalid : jwtVerify t secret now = none)
    (hexpired : s.expiresAt < now) :
    authMiddleware (some t) sessions users = .proceed u := by
  simp [authMiddleware, hs, hu]

/-- C3 (witness): a token signed with the wrong secret and already expired
(both as a claim and as a session row) still passes the middleware. -/
theorem C3_witness :
    authMiddleware (some ⟨"comp-1", "bad-secret", 0⟩)
      [⟨1, ⟨"comp-1", "bad-secret", 0⟩, 5⟩]
      [⟨1, "n", "e", "p", "pw", none⟩] =
      .proceed ⟨1, "n", "e", "p", "pw", none⟩ :=
  C3_middleware_no_verification
    [⟨1, ⟨"comp-1", "bad-secret", 0⟩, 5⟩]
    [⟨1, "n", "e", "p", "pw", none⟩]
    ⟨"comp-1", "bad-secret", 0⟩ ⟨1, ⟨"comp-1", "bad-secret", 0⟩, 5⟩
    ⟨1, "n", "e", "p", "pw", none⟩ "sec" 10
    (by decide) (by decide) (by decide) (by decide)

/-- C4: a login whose identifier matches no user and a login whose
identifier matches a user but whose password fails the bcrypt comparison
produce identical outcomes — same 404 status, same error body, no state
change — so the two failure causes are indistinguishable. -/
theorem C4_login_failures_indistinguishable
    (bc : String → String → Bool) (req1 req2 : LoginRequest)
    (users : List User) (sessions : List Session) (secret : String)
    (now1 now2 : Nat) (resp1 resp2 : FetchResult (List ContactRecord))
    (u : User)
    (h1 : users.find?
      (fun x => x.email == req1.identifier || x.phone == req1.identifier) =
      none)
    (h2 : users.find?
      (fun x => x.email == req2.identifier || x.phone == req2.identifier) =
      some u)
    (hpw : bc req2.password u.password = false) :
    loginHandler bc req1 users sessions secret now1 resp1 =
      loginHandler bc req2 users sessions secret now2 resp2 ∧
    (loginHandler bc req1 users sessions secret now1 resp1).status = 404 ∧
    (loginHandler bc req1 users sessions secret now1 resp1).body =
      "Invalid email or phone and password" := by
  refine ⟨?_, ?_, ?_⟩ <;> simp [loginHandler, h1, h2, hpw]

/-- C4 (witness): unknown identifier versus wrong password on a concrete
user table give the same response. -/
theorem C4_witness :
    loginHandler (fun p h => p == h) ⟨"x@y.z", "pw"⟩
      [⟨1, "n", "a@b.c", "0", "pw", none⟩] [] "sec" 0 (.ok []) =
    loginHandler (fun p h => p == h) ⟨"a@b.c", "wrong"⟩
      [⟨1, "n", "a@b.c", "0", "pw", none⟩] [] "sec" 0 (.ok []) :=
  (C4_login_failures_indistinguishable (fun p h => p == h)
    ⟨"x@y.z", "pw"⟩ ⟨"a@b.c", "wrong"⟩
    [⟨1, "n", "a@b.c", "0", "pw", none⟩] [] "sec" 0 0 (.ok []) (.ok [])
    ⟨1, "n", "a@b.c", "0", "pw", none⟩
    (by decide) (by decide) (by decide)).1

/-- C9: logout with no cookie answers 400 and leaves the session table
untouched; logout with a cookie answers 200, clears the cookie, and the
remaining table holds exactly the rows whose token differs from the
cookie value. -/
theorem C9_logout_behaviour (sessions : List Session) (t : Jwt) :
    logoutHandler none sessions =
      { status := 400, body := "No active session found",
        sessions := sessions, clearedCookie := false } ∧
    (logoutHandler (some t) sessions).status = 200 ∧
    (logoutHandler (some t) sessions).body = "Logged out successfully" ∧
    (logoutHandler (some t) sessions).clearedCookie = true ∧
    (∀ s : Session, s ∈ (logoutHandler (some t) sessions).sessions ↔
      (s ∈ sessions ∧ s.token ≠ t)) := by
  refine ⟨rfl, rfl, rfl, rfl, ?_⟩
  intro s
  simp [logoutHandler, List.mem_filter]

theorem joinAuthor_fields (users : List User) (m : BookingMessage)
    (j : MessageWithAuthor) (h : joinAuthor users m = some j) :
    j.msg = m ∧ ∃ u, users.find? (fun x => x.id == m.userId) = some u ∧
      j.authorId = u.id ∧ j.authorName = u.name ∧ j.authorEmail = u.email := by
  unfold joinAuthor at h
  cases hf : users.find? (fun x => x.id == m.userId) with
  | none =>
      rw [hf] at h
      cases h
  | some u =>
      rw [hf] at h
      have he : j = { msg := m, authorId := u.id, authorName := u.name,
                      authorEmail := u.email } := (Option.some.inj h).symm
      refine ⟨by rw [he], u, rfl, by rw [he], by rw [he], by rw [he]⟩

theorem joinAll_eq_some (users : List User) (l : List BookingMessage)
    (hfk : ∀ m ∈ l, (users.find? (fun x => x.id == m.userId)).isSome) :
    ∃ js, joinAll users l = some js ∧
      js.map (fun j => j.msg) = l ∧
      ∀ j ∈ js, joinAuthor users j.msg = some j := by
  induction l with
  | nil =>
      refine ⟨[], rfl, rfl, ?_⟩
      intro j hj
      cases hj
  | cons m rest ih =>
      have hm := hfk m (List.mem_cons_self _ _)
      cases hf : users.find? (fun x => x.id == m.userId) with
      | none =>
          rw [hf] at hm
          cases hm
      | some u =>
          obtain ⟨js, hjs, hmap, hall⟩ :=
            ih (fun x hx => hfk x (List.mem_cons_of_mem _ hx))
          refine ⟨{ msg := m, authorId := u.id, authorName := u.name,
                    authorEmail := u.email } :: js, ?_, ?_, ?_⟩
          · simp [joinAll, joinAuthor, hf, hjs]
          · simp [hmap]
          · intro j hj
            rcases List.mem_cons.mp hj with rfl | hj
            · simp [joinAuthor, hf]
            · exact hall j hj

/-- C5: check-session takes the token from the bearer header or, failing
that, the cookie; it answers 401 when the token is missing, when
`jwt.verify` rejects it (bad signature or expired), or when no session
row holds it; otherwise it answers 200 with exactly the user's id, name,
email and phone. -/
theorem C5_check_session
    (header : Option AuthHeader) (cookie : Option Jwt)
    (sessions : List Session) (users : List User)
    (secret : String) (now : Nat) :
    ((extractToken header).orElse (fun _ => cookie) = none →
      checkSession header cookie sessions users secret now =
        .error 401 "Unauthorized") ∧
    (∀ t, (extractToken header).orElse (fun _ => cookie) = some t →
      jwtVerify t secret now = none →
      checkSession header cookie sessions users secret now =
        .error 401 "Invalid token") ∧
    (∀ t p, (extractToken header).orElse (fun _ => cookie) = some t →
      jwtVerify t secret now = some p →
      sessions.find? (fun s => s.token == t) = none →
      checkSession header cookie sessions users secret now =
        .error 401 "Session not found") ∧
    (∀ t p s u, (extractToken header).orElse (fun _ => cookie) = some t →
      jwtVerify t secret now = some p →
      sessions.find? (fun x => x.token == t) = some s →
      users.find? (fun x => x.id == s.userId) = some u →
      checkSession header cookie sessions users secret now =
        .valid { id := u.id, name := u.name,
                 email := u.email, phone := u.phone }) := by
  refine ⟨?_, ?_, ?_, ?_⟩
  · intro h
    simp [checkSession, h]
  · intro t h hv
    simp [checkSession, h, hv]
  · intro t p h hv hs
    simp [checkSession, h, hv, hs]
  · intro t p s u h hv hs hu
    simp [checkSession, h, hv, hs, hu]

/-- C5 (witness): a concrete valid cookie token with a matching session
row and user yields 200 with the public profile. -/
theorem C5_witness :
    checkSession none (some ⟨"comp-1", "sec", 2000⟩)
      [⟨1, ⟨"comp-1", "sec", 2000⟩, 999⟩]
      [⟨1, "n", "e", "p", "pw", none⟩] "sec" 10 =
      .valid { id := 1, name := "n", email := "e", phone := "p" } :=
  (C5_check_session none (some ⟨"comp-1", "sec", 2000⟩)
    [⟨1, ⟨"comp-1", "sec", 2000⟩, 999⟩]
    [⟨1, "n", "e", "p", "pw", none⟩] "sec" 10).2.2.2
    ⟨"comp-1", "sec", 2000⟩ "comp-1" ⟨1, ⟨"comp-1", "sec", 2000⟩, 999⟩
    ⟨1, "n", "e", "p", "pw", none⟩ rfl (by decide) (by decide) (by decide)

/-- C7: for an authenticated send-message request, a falsy (absent or
empty) message body yields 400 with no row persisted, and a non-empty
body persists exactly one row whose denormalized description and status
come from the live job fetch of that request, returning the saved row. -/
theorem C7_send_message
    (user : User) (uuid : String) (message : Option String)
    (jd : JobDetails) (messages : List BookingMessage) (nextId now : Nat) :
    (jsTruthy message = false ↔
      (message = none ∨ message = some "")) ∧
    (jsTruthy message = false →
      sendMessage (some user) uuid message jd messages nextId now =
        { status := 400, errorBody := some "Message is required",
          saved := none, messages := messages }) ∧
    (∀ m, message = some m → m ≠ "" →
      sendMessage (some user) uuid message jd messages nextId now =
        { status := 200, errorBody := none,
          saved := some { id := nextId, bookingUuid := uuid,
                          bookingDescription := jd.job_description,
                          bookingStatus := jd.status, userId := user.id,
                          message := m, createdAt := now },
          messages := messages ++
            [{ id := nextId, bookingUuid := uuid,
               bookingDescription := jd.job_description,
               bookingStatus := jd.status, userId := user.id,
               message := m, createdAt := now }] }) := by
  refine ⟨?_, ?_, ?_⟩
  · cases message with
    | none => simp [jsTruthy]
    | some s => simp [jsTruthy, String.isEmpty_iff]
  · intro h
    simp [sendMessage, h]
  · rintro m rfl hm
    have ht : jsTruthy (some m) = true := by
      simp only [jsTruthy]
      cases he : m.isEmpty
      · rfl
      · exact absurd ((String.isEmpty_iff m).mp he) hm
    simp [sendMessage, ht]

/-- C7 (witness): a concrete non-empty send persists one row with the
fetched snapshot fields; a concrete empty send is rejected. -/
theorem C7_witness :
    sendMessage (some ⟨1, "n", "e", "p", "pw", some "comp-1"⟩) "job-1"
      (some "hello") ⟨"desc", "Work Order"⟩ [] 1 50 =
      { status := 200, errorBody := none,
        saved := some { id := 1, bookingUuid := "job-1",
                        bookingDescription := "desc",
                        bookingStatus := "Work Order", userId := 1,
                        message := "hello", createdAt := 50 },
        messages := [{ id := 1, bookingUuid := "job-1",
                       bookingDescription := "desc",
                       bookingStatus := "Work Order", userId := 1,
                       message := "hello", createdAt := 50 }] } :=
  (C7_send_message ⟨1, "n", "e", "p", "pw", some "comp-1"⟩ "job-1"
    (some "hello") ⟨"desc", "Work Order"⟩ [] 1 50).2.2 "hello" rfl
    (by decide)

theorem map_fst_map_pair {β : Type} (f : Job → β) (l : List Job) :
    (l.map (fun x => (x, f x))).map Prod.fst = l := by
  induction l with
  | nil => rfl
  | cons a as ih => simp only [List.map_cons, ih]

/-- C10: in the job-listing endpoint a failed per-job attachment fetch is
swallowed: that job comes back with an empty attachment list while the
listing still succeeds with every job present. -/
theorem C10_attachment_failure_swallowed
    (user : User) (jobs : List Job)
    (attResp : String → FetchResult (List Attachment))
    (j : Job) (st : Nat) (b : String)
    (huuid : jsTruthy user.sm8Uuid = true)
    (hj : j ∈ jobs)
    (hfail : attResp j.uuid = .err st b) :
    listJobs (some user) (.ok jobs) attResp =
      .ok (jobs.map (fun x => (x, fetchBookingAttachments (attResp x.uuid)))) ∧
    (j, ([] : List Attachment)) ∈
      jobs.map (fun x => (x, fetchBookingAttachments (attResp x.uuid))) ∧
    (jobs.map (fun x => (x, fetchBookingAttachments (attResp x.uuid)))).map
      Prod.fst = jobs := by
  refine ⟨by simp [listJobs, huuid], ?_,
    map_fst_map_pair (fun x => fetchBookingAttachments (attResp x.uuid)) jobs⟩
  have hempty : fetchBookingAttachments (attResp j.uuid) = [] := by
    rw [hfail]
    rfl
  exact hempty ▸ List.mem_map_of_mem
    (fun x => (x, fetchBookingAttachments (attResp x.uuid))) hj

/-- C10 (witness): a two-job listing where the second job's attachment
fetch fails with 500 still answers with both jobs, the failed one carrying
no attachments. -/
theorem C10_witness :
    listJobs (some ⟨1, "n", "e", "p", "pw", some "comp-1"⟩)
      (.ok [⟨"job-1", "d1"⟩, ⟨"job-2", "d2"⟩])
      (fun u => if u == "job-1" then .ok [⟨"att-1", "f.png"⟩]
                else .err 500 "upstream") =
      .ok [(⟨"job-1", "d1"⟩, [⟨"att-1", "f.png"⟩]), (⟨"job-2", "d2"⟩, [])] :=
  ((C10_attachment_failure_swallowed
    ⟨1, "n", "e", "p", "pw", some "comp-1"⟩
    [⟨"job-1", "d1"⟩, ⟨"job-2", "d2"⟩]
    (fun u => if u == "job-1" then .ok [⟨"att-1", "f.png"⟩]
              else .err 500 "upstream")
    ⟨"job-2", "d2"⟩ 500 "upstream" (by decide)
    (by decide) (by decide)).1).trans (by decide)

/-- C8: listing messages for a booking succeeds and returns exactly the
persisted messages whose `bookingUuid` matches the request, in ascending
`createdAt` order, each joined with its author's id, name and email.
The hypothesis is the schema's foreign-key guarantee that every message's
author row exists. -/
theorem C8_get_messages
    (uuid : String) (messages : List BookingMessage) (users : List User)
    (hfk : ∀ m ∈ messages,
      (users.find? (fun x => x.id == m.userId)).isSome) :
    (getMessages uuid messages users).isSome = true ∧
    (∀ js, getMessages uuid messages users = some js →
      List.Perm (js.map (fun j => j.msg))
        (messages.filter (fun m => m.bookingUuid == uuid)) ∧
      (js.map (fun j => j.msg)).Pairwise
        (fun a b => a.createdAt ≤ b.createdAt) ∧
      ∀ j ∈ js, ∃ u,
        users.find? (fun x => x.id == j.msg.userId) = some u ∧
        j.authorId = u.id ∧ j.authorName = u.name ∧
        j.authorEmail = u.email) := by
  have htot : ∀ a b : BookingMessage,
      (decide (a.createdAt ≤ b.createdAt)) = true ∨
      (decide (b.createdAt ≤ a.createdAt)) = true := by
    intro a b
    rcases Nat.le_total a.createdAt b.createdAt with h | h
    · exact Or.inl (decide_eq_true h)
    · exact Or.inr (decide_eq_true h)
  have htrans : ∀ a b c : BookingMessage,
      decide (a.createdAt ≤ b.createdAt) = true →
      decide (b.createdAt ≤ c.createdAt) = true →
      decide (a.createdAt ≤ c.createdAt) = true := by
    intro a b c h1 h2
    exact decide_eq_true
      (Nat.le_trans (of_decide_eq_true h1) (of_decide_eq_true h2))
  have hperm : List.Perm
      (sortBy (fun a b => a.createdAt ≤ b.createdAt)
        (messages.filter (fun m => m.bookingUuid == uuid)))
      (messages.filter (fun m => m.bookingUuid == uuid)) :=
    perm_sortBy _ _
  have hrowsfk : ∀ m ∈ sortBy (fun a b => a.createdAt ≤ b.createdAt)
      (messages.filter (fun m => m.bookingUuid == uuid)),
      (users.find? (fun x => x.id == m.userId)).isSome := by
    intro m hm
    exact hfk m (List.mem_of_mem_filter (hperm.mem_iff.mp hm))
  obtain ⟨js0, hjs0, hmap0, hall0⟩ := joinAll_eq_some users _ hrowsfk
  constructor
  · rw [getMessages, hjs0]
    rfl
  · intro js hjs
    rw [getMessages, hjs0] at hjs
    have hj : js0 = js := Option.some.inj hjs
    subst hj
    refine ⟨?_, ?_, ?_⟩
    · rw [hmap0]
      exact hperm
    · rw [hmap0]
      exact (pairwise_sortBy _ htot htrans _).imp
        (fun h => of_decide_eq_true h)
    · intro j hj
      exact (joinAuthor_fields users j.msg j (hall0 j hj)).2

/-- C8 (witness): a concrete two-message listing succeeds. -/
theorem C8_witness :
    (getMessages "b1"
      [⟨1, "b1", "d", "s", 1, "late", 90⟩,
       ⟨2, "b1", "d", "s", 1, "early", 10⟩]
      [⟨1, "n", "e", "p", "pw", none⟩]).isSome = true :=
  (C8_get_messages "b1"
    [⟨1, "b1", "d", "s", 1, "late", 90⟩,
     ⟨2, "b1", "d", "s", 1, "early", 10⟩]
    [⟨1, "n", "e", "p", "pw", none⟩] (by decide)).1

theorem listAllGrouped_keys (userId : Nat) (messages : List BookingMessage) :
    (listAllGrouped userId messages).map Prod.fst =
      (firstOccsAux []
        (sortBy (fun a b => b.createdAt ≤ a.createdAt)
          (messages.filter (fun m => m.userId == userId)))).map
        (fun m => m.bookingUuid) := by
  simp only [listAllGrouped]
  rw [groupMessages_keys]
  simp

theorem sortedDesc_userMessages (userId : Nat)
    (messages : List BookingMessage) :
    (sortBy (fun a b => b.createdAt ≤ a.createdAt)
      (messages.filter (fun m => m.userId == userId))).Pairwise
      (fun a b => b.createdAt ≤ a.createdAt) := by
  have htot : ∀ a b : BookingMessage,
      (decide (b.createdAt ≤ a.createdAt)) = true ∨
      (decide (a.createdAt ≤ b.createdAt)) = true := by
    intro a b
    rcases Nat.le_total b.createdAt a.createdAt with h | h
    · exact Or.inl (decide_eq_true h)
    · exact Or.inr (decide_eq_true h)
  have htrans : ∀ a b c : BookingMessage,
      decide (b.createdAt ≤ a.createdAt) = true →
      decide (c.createdAt ≤ b.createdAt) = true →
      decide (c.createdAt ≤ a.createdAt) = true := by
    intro a b c h1 h2
    exact decide_eq_true
      (Nat.le_trans (of_decide_eq_true h2) (of_decide_eq_true h1))
  exact (pairwise_sortBy _ htot htrans _).imp (fun h => of_decide_eq_true h)

theorem latestActivity_eq_of_firstOcc (userId : Nat)
    (messages : List BookingMessage) {m : BookingMessage}
    (hm : m ∈ firstOccsAux []
      (sortBy (fun a b => b.createdAt ≤ a.createdAt)
        (messages.filter (fun x => x.userId == userId)))) :
    latestActivity userId messages m.bookingUuid = m.createdAt := by
  have hperm := perm_sortBy (fun a b => b.createdAt ≤ a.createdAt)
    (messages.filter (fun x => x.userId == userId))
  have hmS : m ∈ sortBy (fun a b => b.createdAt ≤ a.createdAt)
      (messages.filter (fun x => x.userId == userId)) :=
    (firstOccsAux_sublist _ _).subset hm
  have hmF : m ∈ messages.filter (fun x => x.userId == userId) :=
    hperm.mem_iff.mp hmS
  have hmMsgs : m ∈ messages := List.mem_of_mem_filter hmF
  have hmUid : m.userId = userId := by
    have h := List.of_mem_filter hmF
    simp only [beq_iff_eq] at h
    exact h
  simp only [latestActivity]
  apply Nat.le_antisymm
  · apply foldrMax_le
    intro a ha
    rcases List.mem_map.mp ha with ⟨x, hx, rfl⟩
    have hxf := List.of_mem_filter hx
    simp only [Bool.and_eq_true, beq_iff_eq] at hxf
    have hxu : x.userId = userId := hxf.1
    have hxb : x.bookingUuid = m.bookingUuid := hxf.2
    have hxS : x ∈ sortBy (fun a b => b.createdAt ≤ a.createdAt)
        (messages.filter (fun x => x.userId == userId)) :=
      hperm.mem_iff.mpr (List.mem_filter.mpr
        ⟨List.mem_of_mem_filter hx, beq_iff_eq.mpr hxu⟩)
    exact firstOccsAux_createdAt_max
      (sortedDesc_userMessages userId messages) [] hm x hxS hxb
  · apply le_foldrMax
    apply List.mem_map.mpr
    refine ⟨m, List.mem_filter.mpr ⟨hmMsgs, ?_⟩, rfl⟩
    rw [Bool.and_eq_true]
    exact ⟨beq_iff_eq.mpr hmUid, beq_iff_eq.mpr rfl⟩

/-- C6: the grouped list-all response for a user has exactly one entry per
distinct booking UUID among that user's messages — its keys contain no
duplicate, and a UUID is a key iff the user has some message on that
booking — and the keys are ordered most-recent-activity-first at the
message level (each key's latest message time is no smaller than the
next's). -/
theorem C6_list_all_grouped (userId : Nat) (messages : List BookingMessage) :
    ((listAllGrouped userId messages).map Prod.fst).Nodup ∧
    (∀ u, u ∈ (listAllGrouped userId messages).map Prod.fst ↔
      ∃ m ∈ messages, m.userId = userId ∧ m.bookingUuid = u) ∧
    ((listAllGrouped userId messages).map Prod.fst).Pairwise
      (fun u v =>
        latestActivity userId messages v ≤ latestActivity userId messages u) := by
  rw [listAllGrouped_keys]
  have hperm := perm_sortBy (fun a b => b.createdAt ≤ a.createdAt)
    (messages.filter (fun x => x.userId == userId))
  refine ⟨nodup_firstOccsAux_keys _ _, ?_, ?_⟩
  · intro u
    rw [mem_firstOccsAux_keys]
    constructor
    · rintro ⟨_, hu⟩
      rcases List.mem_map.mp hu with ⟨m, hmS, rfl⟩
      have hmF := hperm.mem_iff.mp hmS
      have huid : m.userId = userId := by
        have h := List.of_mem_filter hmF
        simp only [beq_iff_eq] at h
        exact h
      exact ⟨m, List.mem_of_mem_filter hmF, huid, rfl⟩
    · rintro ⟨m, hmem, huid, rfl⟩
      refine ⟨by simp, ?_⟩
      apply List.mem_map.mpr
      refine ⟨m, ?_, rfl⟩
      exact hperm.mem_iff.mpr
        (List.mem_filter.mpr ⟨hmem, beq_iff_eq.mpr huid⟩)
  · rw [List.pairwise_map]
    have hFO : (firstOccsAux []
        (sortBy (fun a b => b.createdAt ≤ a.createdAt)
          (messages.filter (fun x => x.userId == userId)))).Pairwise
        (fun a b => b.createdAt ≤ a.createdAt) :=
      List.Pairwise.sublist (firstOccsAux_sublist _ _)
        (sortedDesc_userMessages userId messages)
    apply List.Pairwise.imp_of_mem ?_ hFO
    intro a b ha hb hab
    rw [latestActivity_eq_of_firstOcc userId messages ha,
        latestActivity_eq_of_firstOcc userId messages hb]
    exact hab

/-- C6 (witness): a concrete table where user 1 wrote twice on the same
booking and once on another still yields duplicate-free keys. -/
theorem C6_witness :
    ((listAllGrouped 1
      [⟨1, "b1", "d1", "s", 1, "m1", 10⟩,
       ⟨2, "b2", "d2", "s", 1, "m2", 30⟩,
       ⟨3, "b1", "d1", "s", 1, "m3", 20⟩]).map Prod.fst).Nodup :=
  (C6_list_all_grouped 1
    [⟨1, "b1", "d1", "s", 1, "m1", 10⟩,
     ⟨2, "b2", "d2", "s", 1, "m2", 30⟩,
     ⟨3, "b1", "d1", "s", 1, "m3", 20⟩]).1

/-- C9 (witness): a concrete logout without a cookie leaves the one-row
session table unchanged and answers 400. -/
theorem C9_witness :
    logoutHandler none [⟨1, ⟨"comp-1", "sec", 99⟩, 50⟩] =
      { status := 400, body := "No active session found",
        sessions := [⟨1, ⟨"comp-1", "sec", 99⟩, 50⟩],
        clearedCookie := false } :=
  (C9_logout_behaviour [⟨1, ⟨"comp-1", "sec", 99⟩, 50⟩]
    ⟨"comp-1", "sec", 99⟩).1

end ASAP
